import Mathlib

/-!
Shallow embedding of the MLB breakout-score engine (the scoring pipeline of
the repository's main application file): cohort filter, feature extraction,
cohort-relative normalization, weighted aggregation, multiplicative
adjustments, rounding, and the descending stable sort of the ranker.

Numbers are modelled as exact rationals (`ℚ`): every arithmetic operation of
the source (comparison, subtraction, division by a nonzero range,
multiplication, `Math.round`) is embedded exactly.  Nullable JavaScript
values are `Option`s; JavaScript truthiness of numbers (`null`/`0` falsy) is
modelled explicitly where the source relies on it (`a || b` fallbacks).
-/

namespace Breakout

/-- The ten feature names of the model (the keys of `WEIGHTS`). -/
inductive Feature
  | hardHitRate
  | barrelRate
  | batSpeed
  | barrelImprovement
  | hardHitImprovement
  | chaseImprovement
  | kRateInverse
  | chaseRateInverse
  | xwobaSurplus
  | xwobaLevel
  deriving DecidableEq, Repr

/-- The feature list in the source's `WEIGHTS` insertion order. -/
def FEATURES : List Feature :=
  [.hardHitRate, .barrelRate, .batSpeed,
   .barrelImprovement, .hardHitImprovement, .chaseImprovement,
   .kRateInverse, .chaseRateInverse,
   .xwobaSurplus, .xwobaLevel]

/-- The fixed feature weights (`WEIGHTS` in the source, model v5.4). -/
def WEIGHTS : Feature → ℚ
  | .hardHitRate => 14/100
  | .barrelRate => 14/100
  | .batSpeed => 9/100
  | .barrelImprovement => 15/100
  | .hardHitImprovement => 10/100
  | .chaseImprovement => 8/100
  | .kRateInverse => 10/100
  | .chaseRateInverse => 10/100
  | .xwobaSurplus => 7/100
  | .xwobaLevel => 3/100

/-- A raw player record as consumed by `computeBreakoutScore`.  All fields
except identity are nullable.  The year-suffixed wOBA/xwOBA columns of the
data sets are individual fields, as in the source records. -/
structure Player where
  name : String
  team : String
  position : Option String
  age : Option ℤ
  pa : Option ℤ
  currentWoba : Option ℚ
  careerWoba : Option ℚ
  yearsInMLB : Option ℤ
  woba21 : Option ℚ
  woba22 : Option ℚ
  woba23 : Option ℚ
  woba24 : Option ℚ
  woba25 : Option ℚ
  xwoba21 : Option ℚ
  xwoba22 : Option ℚ
  xwoba23 : Option ℚ
  xwoba24 : Option ℚ
  xwoba25 : Option ℚ
  hardHitRate : Option ℚ
  barrelRate : Option ℚ
  batSpeed : Option ℚ
  kRate : Option ℚ
  chaseRate : Option ℚ
  barrelImprovement : Option ℚ
  hardHitImprovement : Option ℚ
  chaseImprovement : Option ℚ
  kRateImprovement : Option ℚ
  xwobaSurplus : Option ℚ
  launchAngleDelta : Option ℚ
  pullRate : Option ℚ
  deriving DecidableEq, Repr

/-- A player record with every optional field null. -/
def nullPlayer : Player :=
  ⟨"", "", none, none, none, none, none, none, none, none, none, none, none,
   none, none, none, none, none, none, none, none, none, none, none, none,
   none, none, none, none, none⟩

/-- Reading the dynamically named column `xwoba<suffix>` of a record
(`p[fields.currentXwoba]` in the source); a suffix with no matching column is
an absent property, i.e. null. -/
def Player.xwobaOfSuffix (p : Player) (n : ℤ) : Option ℚ :=
  if n = 21 then p.xwoba21
  else if n = 22 then p.xwoba22
  else if n = 23 then p.xwoba23
  else if n = 24 then p.xwoba24
  else if n = 25 then p.xwoba25
  else none

/-- `getFieldNames`: the two-digit year suffixes used to select the
year-specific columns (`String(y).slice(-2)` on a four-digit year is `y`
mod 100). -/
structure FieldNames where
  currentWoba : ℤ
  prevWoba : ℤ
  currentXwoba : ℤ
  prevXwoba : ℤ

def getFieldNames (year : ℤ) : FieldNames :=
  { currentWoba := (year - 1) % 100
    prevWoba := (year - 2) % 100
    currentXwoba := (year - 1) % 100
    prevXwoba := (year - 2) % 100 }

/-- `AGE_MULTIPLIERS.getMultiplier`. -/
def ageMult : Option ℤ → ℚ
  | none => 1
  | some a =>
    if a ≤ 23 then 115/100
    else if a ≤ 26 then 125/100
    else if a ≤ 28 then 1
    else if a ≤ 30 then 85/100
    else 70/100

/-- `SAMPLE_SIZE_ADJUSTMENTS.getMultiplier`. -/
def sampleMult : Option ℤ → ℚ
  | none => 60/100
  | some pa =>
    if 500 ≤ pa then 1
    else if 300 ≤ pa then 95/100
    else if 200 ≤ pa then 85/100
    else if 150 ≤ pa then 75/100
    else 60/100

/-- `K_RATE_PENALTIES.getPenalty` (advisory; not part of the score). -/
def kRatePenalty : Option ℚ → ℚ
  | none => 1
  | some k => if 30/100 ≤ k then 85/100 else if 25/100 ≤ k then 95/100 else 1

/-- `CAREER_CONTEXT.getMultiplier` (advisory; not part of the score). -/
def careerContextMult (currentWoba careerWoba : Option ℚ) : ℚ :=
  match currentWoba, careerWoba with
  | some cw, some carw =>
    if cw - carw > 25/1000 then 75/100
    else if cw - carw < -(20/1000) then 110/100
    else 1
  | _, _ => 1

/-- `SOPHOMORE_SLUMP.getMultiplier` (advisory; not part of the score). -/
def sophomoreSlumpMult (_age : Option ℤ) (currentWoba careerWoba : Option ℚ)
    (yearsInMLB : Option ℤ) : ℚ :=
  match currentWoba, careerWoba with
  | some cw, some carw =>
    match yearsInMLB with
    | some y => if 1 ≤ y ∧ y ≤ 3 ∧ cw - carw > 30/1000 then 65/100 else 1
    | none => 1
  | _, _ => 1

/-- `YEARS_OF_SERVICE.getMultiplier` (advisory; not part of the score). -/
def yearsOfServiceMult : Option ℤ → ℚ
  | none => 85/100
  | some y =>
    if y = 1 then 80/100
    else if y = 2 then 90/100
    else if y = 3 then 95/100
    else if 6 ≤ y then 95/100
    else 1

/-- `CHASE_RATE_FILTER.getSurplusReliability` (advisory; not part of the
score). -/
def surplusReliability (chaseRate xwobaSurplus : Option ℚ) : ℚ :=
  match chaseRate, xwobaSurplus with
  | some c, some s =>
    if s > 35/1000 ∧ c > 30/100 then 70/100
    else if s > 35/1000 ∧ c > 27/100 then 85/100
    else 1
  | _, _ => 1

/-- `BAT_SPEED_BOOST.getMultiplier` (advisory; not part of the score). -/
def batSpeedBoostMult (batSpeed currentWoba : Option ℚ) : ℚ :=
  match batSpeed, currentWoba with
  | some b, some w => if 74 ≤ b ∧ w < 330/1000 then 110/100 else 1
  | _, _ => 1

/-- `LAUNCH_ANGLE_CHANGE.getMultiplier` (advisory; not part of the score). -/
def launchAngleMult (launchAngleDelta : Option ℚ) (age : Option ℤ) : ℚ :=
  match launchAngleDelta, age with
  | some d, some a => if 3 ≤ d ∧ a ≤ 27 then 112/100 else 1
  | _, _ => 1

/-- `PULL_RATE_BOOST.getMultiplier` (advisory; not part of the score). -/
def pullRateMult (pullRate : Option ℚ) (year : Option ℤ) : ℚ :=
  match pullRate, year with
  | some r, some y => if r > 48/100 ∧ 2023 ≤ y then 108/100 else 1
  | _, _ => 1

/-! ## Cohort filter -/

/-- Substring test on character lists (`String.prototype.includes`). -/
def hasInfix (hay sub : List Char) : Bool :=
  match hay with
  | [] => sub.isEmpty
  | _ :: t => sub.isPrefixOf hay || hasInfix t sub

/-- The uppercased position string `(p.position || '').toUpperCase()`, as a
character list (the source's positions are ASCII, on which `Char.toUpper`
agrees with the JavaScript upper-casing). -/
def posUp (p : Player) : List Char := (p.position.getD "").data.map Char.toUpper

/-- First cohort filter: keep non-pitchers
(`!pos.includes('SP') && !pos.includes('RP') && pos !== 'P'`). -/
def keepHitter (p : Player) : Bool :=
  !(hasInfix (posUp p) "SP".data) && !(hasInfix (posUp p) "RP".data)
    && !(posUp p == "P".data)

/-- JavaScript numeric truthiness: `null` and `0` are falsy. -/
def truthy : Option ℚ → Bool
  | none => false
  | some x => !(x == 0)

/-- JavaScript `a || b` on nullable numbers. -/
def jsOr (a b : Option ℚ) : Option ℚ := if truthy a then a else b

/-- The representative wOBA `p.currentWoba || p.woba25 || p.woba24`. -/
def repWoba (p : Player) : Option ℚ := jsOr (jsOr p.currentWoba p.woba25) p.woba24

/-- Second cohort filter: drop established stars (wOBA above .350), with the
carve-out for known age below 24 and known plate appearances below 400;
unknown wOBA is retained. -/
def keepNonStar (p : Player) : Bool :=
  match repWoba p with
  | none => true
  | some w =>
    if 35/100 < w then
      match p.age, p.pa with
      | some a, some n => decide (a < 24) && decide (n < 400)
      | _, _ => false
    else true

/-- The two filters of `computeBreakoutScore`, applied in order. -/
def cohortFilter (l : List Player) : List Player :=
  (l.filter keepHitter).filter keepNonStar

/-! ## Feature extraction and normalization -/

/-- `scorePlayer`: the raw feature vector `_raw` of a player. -/
def scorePlayer (p : Player) (year : ℤ) : Feature → Option ℚ
  | .hardHitRate => p.hardHitRate
  | .barrelRate => p.barrelRate
  | .batSpeed => p.batSpeed
  | .barrelImprovement => p.barrelImprovement
  | .hardHitImprovement => p.hardHitImprovement
  | .chaseImprovement => p.chaseImprovement
  | .kRateInverse => p.kRate.map (fun k => 1 - k)
  | .chaseRateInverse => p.chaseRate.map (fun c => 1 - c)
  | .xwobaSurplus => p.xwobaSurplus
  | .xwobaLevel => p.xwobaOfSuffix (getFieldNames year).currentXwoba

/-- The non-null raw values of a feature across a cohort (`vals` in
`normalize`). -/
def featureVals (l : List Player) (year : ℤ) (f : Feature) : List ℚ :=
  l.filterMap (fun p => scorePlayer p year f)

/-- The cohort min/max of a feature (`Math.min(...vals)`, `Math.max(...vals)`
in `normalize`), or `none` when the feature has no non-null value. -/
def boundsOf (l : List Player) (year : ℤ) (f : Feature) : Option (ℚ × ℚ) :=
  match featureVals l year f with
  | [] => none
  | v :: vs => some (vs.foldl min v, vs.foldl max v)

/-- The normalized 0–100 score of one value under given cohort bounds:
`((v - min) / range) * 100` with `range = (max - min) || 1`; a null value
scores 50, and a feature whose cohort bounds are unset (no non-null value in
the cohort) falls back to 50 in the aggregator (`_scores[field] ?? 50`). -/
def normScore (b : Option (ℚ × ℚ)) (v : Option ℚ) : ℚ :=
  match b with
  | none => 50
  | some (mn, mx) =>
    match v with
    | none => 50
    | some x => (x - mn) / (if mx - mn = 0 then 1 else mx - mn) * 100

/-! ## Weighted aggregation and adjustments -/

/-- The raw weighted composite `total`: sum over all configured features of
normalized value times weight. -/
def weightedTotal (b : Feature → Option (ℚ × ℚ)) (raw : Feature → Option ℚ) : ℚ :=
  FEATURES.foldl (fun acc f => acc + normScore (b f) (raw f) * WEIGHTS f) 0

/-- `o != null && o > c`. -/
def gtOpt (o : Option ℚ) (c : ℚ) : Bool :=
  match o with
  | none => false
  | some x => decide (c < x)

/-- `o != null && o < c`. -/
def ltOpt (o : Option ℚ) (c : ℚ) : Bool :=
  match o with
  | none => false
  | some x => decide (x < c)

def hardHitAboveAvg (p : Player) : Bool := gtOpt p.hardHitRate (45/100)
def barrelAboveAvg (p : Player) : Bool := gtOpt p.barrelRate (10/100)
def batSpeedAboveAvg (p : Player) : Bool := gtOpt p.batSpeed 73
def lowKRate (p : Player) : Bool := ltOpt p.kRate (20/100)
def barrelImproving (p : Player) : Bool := gtOpt p.barrelImprovement (2/100)
def hardHitImproving (p : Player) : Bool := gtOpt p.hardHitImprovement (3/100)
def chaseImproving (p : Player) : Bool := gtOpt p.chaseImprovement (2/100)

/-- `p.kRateImprovement == null || p.kRateImprovement >= -0.03`. -/
def kRateStable (p : Player) : Bool :=
  match p.kRateImprovement with
  | none => true
  | some x => decide (-(3/100) ≤ x)

/-- `p.kRateImprovement != null && p.kRateImprovement < -0.05`. -/
def kRateExploded (p : Player) : Bool :=
  match p.kRateImprovement with
  | none => false
  | some x => decide (x < -(5/100))

def eliteHardHit (p : Player) : Bool := gtOpt p.hardHitRate (55/100)
def eliteBarrel (p : Player) : Bool := gtOpt p.barrelRate (13/100)

/-- The count of sustainable year-over-year improvements (barrel and
hard-hit gated on a stable k-rate, chase counted unconditionally). -/
def improvementCount (p : Player) : ℕ :=
  (if barrelImproving p && kRateStable p then 1 else 0)
    + (if hardHitImproving p && kRateStable p then 1 else 0)
    + (if chaseImproving p then 1 else 0)

/-- The elite-young-talent sliding-scale factor (applies only when both
elite thresholds are met and the age is known). -/
def youngTalentFactor (p : Player) : ℚ :=
  match p.age with
  | none => 1
  | some a =>
    if eliteHardHit p && eliteBarrel p then
      if a ≤ 21 then 140/100
      else if a = 22 then 130/100
      else if a = 23 then 120/100
      else if a = 24 then 110/100
      else 1
    else 1

/-- The elite-profile composite multiplier: the source's accumulator,
written as the same left-to-right product of its conditional factors. -/
def eliteMult (p : Player) : ℚ :=
  (if hardHitAboveAvg p then 110/100 else 1)
    * (if barrelAboveAvg p then 110/100 else 1)
    * (if batSpeedAboveAvg p then 108/100 else 1)
    * (if lowKRate p then 108/100 else 1)
    * (if barrelImproving p && kRateStable p then 115/100 else 1)
    * (if hardHitImproving p && kRateStable p then 112/100 else 1)
    * (if chaseImproving p then 110/100 else 1)
    * (if kRateExploded p then 75/100 else 1)
    * (if hardHitAboveAvg p && barrelAboveAvg p && batSpeedAboveAvg p
          && lowKRate p then 115/100 else 1)
    * (if 2 ≤ improvementCount p then 120/100 else 1)
    * youngTalentFactor p

/-! ## Per-player scoring, rounding and ranking -/

/-- `Math.round`: round half toward positive infinity. -/
def jsRound (q : ℚ) : ℤ := ⌊q + 1/2⌋

/-- The explainability record `_adjustments`. -/
structure Adjustments where
  age : ℚ
  sampleSize : ℚ
  eliteProfile : ℚ
  rawScore : ℤ
  deriving Repr

/-- A scored player: the (unmodified) input record together with the derived
state the pipeline attaches (`_raw`, `_scores`, `breakoutScore`,
`_adjustments`). -/
structure ScoredPlayer where
  record : Player
  raw : Feature → Option ℚ
  scores : Feature → ℚ
  breakoutScore : ℤ
  adjustments : Adjustments

/-- Scoring one player under fixed cohort bounds: the body of the per-player
loop of `computeBreakoutScore`. -/
def scoreOne (b : Feature → Option (ℚ × ℚ)) (year : ℤ) (p : Player) :
    ScoredPlayer :=
  let raw := scorePlayer p year
  let total := weightedTotal b raw
  let aM := ageMult p.age
  let sM := sampleMult p.pa
  let eM := eliteMult p
  { record := p
    raw := raw
    scores := fun f => normScore (b f) (raw f)
    breakoutScore := jsRound (total * aM * sM * eM)
    adjustments :=
      { age := aM, sampleSize := sM, eliteProfile := eM
        rawScore := jsRound total } }

/-- The ranking order: by strictly larger final score, ties by input
position.  On distinct indices this is a total order, which is how the
engine's stable descending sort (`sort((a, b) => b.breakoutScore -
a.breakoutScore)`, stable per the language specification) arranges the
cohort. -/
def rankRel (a b : ℕ × ScoredPlayer) : Prop :=
  b.2.breakoutScore < a.2.breakoutScore
    ∨ (b.2.breakoutScore = a.2.breakoutScore ∧ a.1 ≤ b.1)

instance : DecidableRel rankRel := fun a b => by
  unfold rankRel; exact inferInstance

instance : IsTotal (ℕ × ScoredPlayer) rankRel :=
  ⟨fun a b => by unfold rankRel; omega⟩

instance : IsTrans (ℕ × ScoredPlayer) rankRel :=
  ⟨fun a b c hab hbc => by unfold rankRel at *; omega⟩

/-- Attach input positions to a list. -/
def withIdx : ℕ → List ScoredPlayer → List (ℕ × ScoredPlayer)
  | _, [] => []
  | n, a :: l => (n, a) :: withIdx (n + 1) l

/-- The scored (unsorted) cohort of an invocation. -/
def scoredCohort (players : List Player) (year : ℤ) : List ScoredPlayer :=
  (cohortFilter players).map
    (scoreOne (fun f => boundsOf (cohortFilter players) year f) year)

/-- The ranker's sorted, indexed cohort. -/
def rankedIdx (players : List Player) (year : ℤ) : List (ℕ × ScoredPlayer) :=
  (withIdx 0 (scoredCohort players year)).insertionSort rankRel

/-- `computeBreakoutScore`: filter, score and sort a cohort. -/
def computeBreakoutScore (players : List Player) (year : ℤ) :
    List ScoredPlayer :=
  (rankedIdx players year).map Prod.snd

/-! ## Concrete records used in instance checks -/

/-- A 23-year-old outfielder with 350 PA and wOBA .400. -/
def young23 : Player := { nullPlayer with
  position := some "OF"
  age := some 23
  pa := some 350
  currentWoba := some (4/10) }

/-- A 26-year-old outfielder with 500 PA and wOBA .400. -/
def vet26 : Player := { nullPlayer with
  position := some "OF"
  age := some 26
  pa := some 500
  currentWoba := some (4/10) }

/-- A starting pitcher. -/
def spPitcher : Player := { nullPlayer with position := some "SP" }

/-- A one-player cohort whose only non-null hard-hit value is 0.5, so the
cohort maximum of the feature equals its minimum. -/
def degPlayer : Player := { nullPlayer with hardHitRate := some (1/2) }

/-- A two-player cohort with distinct hard-hit values 0.3 and 0.5. -/
def loPlayer : Player := { nullPlayer with hardHitRate := some (3/10) }

/-- Second member of the two-player witness cohorts. -/
def hiPlayer : Player := { nullPlayer with hardHitRate := some (1/2) }

/-- A second player holding the same hard-hit value as `degPlayer`. -/
def degPlayer2 : Player := { nullPlayer with
  name := "2"
  hardHitRate := some (1/2) }

/-- The player `p` with its hard-hit rate replaced by `v`. -/
def setHH (p : Player) (v : ℚ) : Player := { p with hardHitRate := some v }

/-- Every non-null raw value lies inside the fixed cohort bounds — the
situation of a real cohort, whose bounds are minima/maxima over values that
include this player's own. -/
def InB (b : Feature → Option (ℚ × ℚ)) (raw : Feature → Option ℚ) : Prop :=
  ∀ f x, raw f = some x → ∀ mn mx, b f = some (mn, mx) → mn ≤ x ∧ x ≤ mx

/-- The eight factors of the elite-profile multiplier that do not read the
hard-hit rate. -/
def sharedEliteFactors (p : Player) : ℚ :=
  (if barrelAboveAvg p then (110/100 : ℚ) else 1)
    * (if batSpeedAboveAvg p then 108/100 else 1)
    * (if lowKRate p then 108/100 else 1)
    * (if barrelImproving p && kRateStable p then 115/100 else 1)
    * (if hardHitImproving p && kRateStable p then 112/100 else 1)
    * (if chaseImproving p then 110/100 else 1)
    * (if kRateExploded p then 75/100 else 1)
    * (if 2 ≤ improvementCount p then 120/100 else 1)

/-- The bounds used by the C8 witness: hard-hit bounded by [0, 1], every
other feature without cohort values. -/
def bW : Feature → Option (ℚ × ℚ)
  | .hardHitRate => some (0, 1)
  | _ => none

/-! ## Theorems -/

/-- C6: the age multiplier is the exact step function of the claim:
age ≤ 23 → 1.15; 24–26 → 1.25; 27–28 → 1.00; 29–30 → 0.85; over 30 → 0.70;
null age → 1.00; with the sample ages 21, 25, 28, 30, 33 giving
1.15, 1.25, 1.00, 0.85, 0.70. -/
theorem age_multiplier_step :
    (∀ a : ℤ, a ≤ 23 → ageMult (some a) = 115/100)
    ∧ (∀ a : ℤ, 24 ≤ a → a ≤ 26 → ageMult (some a) = 125/100)
    ∧ (∀ a : ℤ, 27 ≤ a → a ≤ 28 → ageMult (some a) = 1)
    ∧ (∀ a : ℤ, 29 ≤ a → a ≤ 30 → ageMult (some a) = 85/100)
    ∧ (∀ a : ℤ, 30 < a → ageMult (some a) = 70/100)
    ∧ ageMult none = 1
    ∧ ageMult (some 21) = 115/100 ∧ ageMult (some 25) = 125/100
    ∧ ageMult (some 28) = 1 ∧ ageMult (some 30) = 85/100
    ∧ ageMult (some 33) = 70/100 := by
  refine ⟨?_, ?_, ?_, ?_, ?_, rfl, ?_, ?_, ?_, ?_, ?_⟩ <;>
    · intros
      simp only [ageMult]
      split_ifs <;> first | rfl | omega

/-- Witness for C6 at age 25. -/
theorem age_multiplier_step_witness :
    ((24:ℤ) ≤ 25 ∧ (25:ℤ) ≤ 26) ∧ ageMult (some 25) = 125/100 :=
  ⟨⟨by norm_num, by norm_num⟩,
    age_multiplier_step.2.1 25 (by norm_num) (by norm_num)⟩

/-- C5 counterexample: the sample-size multiplier — an adjustment factor of
the pipeline — evaluates to 0.60, not the neutral 1.0, when its required
input (plate appearances) is null. -/
theorem null_default_counterexample :
    sampleMult none = 60/100 ∧ (60/100 : ℚ) ≠ 1 :=
  ⟨rfl, by norm_num⟩

/-- C5 (amended): every adjustment factor evaluates to the neutral 1.0 when
a required input is null, except the sample-size multiplier (0.60 on null
plate appearances, the same value as the under-150 band) and the
years-of-service multiplier (0.85 on null service time); no factor ever
fails on missing data. -/
theorem null_input_defaults :
    ageMult none = 1
    ∧ eliteMult nullPlayer = 1
    ∧ kRatePenalty none = 1
    ∧ (∀ x, careerContextMult none x = 1 ∧ careerContextMult x none = 1)
    ∧ (∀ g x y z, sophomoreSlumpMult g none y z = 1
        ∧ sophomoreSlumpMult g x none z = 1
        ∧ sophomoreSlumpMult g x y none = 1)
    ∧ (∀ x, surplusReliability none x = 1 ∧ surplusReliability x none = 1)
    ∧ (∀ x, batSpeedBoostMult none x = 1 ∧ batSpeedBoostMult x none = 1)
    ∧ (∀ x a, launchAngleMult none a = 1 ∧ launchAngleMult x none = 1)
    ∧ (∀ x y, pullRateMult none y = 1 ∧ pullRateMult x none = 1)
    ∧ sampleMult none = 60/100
    ∧ yearsOfServiceMult none = 85/100 := by
  refine ⟨rfl, ?_, rfl, ?_, ?_, ?_, ?_, ?_, ?_, rfl, rfl⟩
  · norm_num [eliteMult, hardHitAboveAvg, barrelAboveAvg, batSpeedAboveAvg,
      lowKRate, barrelImproving, hardHitImproving, chaseImproving, kRateStable,
      kRateExploded, improvementCount, youngTalentFactor, eliteHardHit,
      eliteBarrel, gtOpt, ltOpt, nullPlayer]
  · intro x; exact ⟨rfl, by cases x <;> rfl⟩
  · intro g x y z
    refine ⟨rfl, by cases x <;> rfl, ?_⟩
    cases x <;> cases y <;> rfl
  · intro x; exact ⟨rfl, by cases x <;> rfl⟩
  · intro x; exact ⟨rfl, by cases x <;> rfl⟩
  · intro x a; exact ⟨rfl, by cases x <;> rfl⟩
  · intro x y; exact ⟨rfl, by cases x <;> rfl⟩

/-- C3: the cohort filter keeps exactly the records passing both rules; a
position containing "SP" or "RP" or equal to "P" (after uppercasing) is
always dropped; an unknown representative wOBA is always retained by the
star rule; wOBA at or below .350 is retained; wOBA above .350 is retained
iff the age is known and below 24 and the plate appearances are known and
below 400.  Concretely, the 23-year-old with 350 PA and wOBA .400 passes
both rules, the 26-year-old with 500 PA and wOBA .400 fails the star rule,
and a record with position "SP" fails the position rule. -/
theorem cohort_filter_spec :
    (∀ l : List Player, cohortFilter l
        = l.filter (fun p => keepHitter p && keepNonStar p))
    ∧ (∀ p : Player, (hasInfix (posUp p) "SP".data
          || hasInfix (posUp p) "RP".data
          || (posUp p == "P".data)) = true → keepHitter p = false)
    ∧ (∀ p : Player, repWoba p = none → keepNonStar p = true)
    ∧ (∀ p : Player, ∀ w : ℚ, repWoba p = some w → w ≤ 35/100 →
        keepNonStar p = true)
    ∧ (∀ p : Player, ∀ w : ℚ, repWoba p = some w → 35/100 < w →
        (keepNonStar p = true ↔
          (∃ a, p.age = some a ∧ a < 24) ∧ (∃ n, p.pa = some n ∧ n < 400)))
    ∧ keepHitter young23 = true ∧ keepNonStar young23 = true
    ∧ keepHitter vet26 = true ∧ keepNonStar vet26 = false
    ∧ keepHitter spPitcher = false := by
  refine ⟨?_, ?_, ?_, ?_, ?_, by decide,
    by norm_num [keepNonStar, repWoba, jsOr, truthy, young23, nullPlayer],
    by decide,
    by norm_num [keepNonStar, repWoba, jsOr, truthy, vet26, nullPlayer],
    by decide⟩
  · intro l
    unfold cohortFilter
    rw [List.filter_filter]
    exact List.filter_congr (fun a _ => by rw [Bool.and_comm])
  · intro p h
    simp only [Bool.or_eq_true] at h
    rcases h with (h | h) | h <;> simp [keepHitter, h]
  · intro p h
    simp [keepNonStar, h]
  · intro p w h hle
    simp only [keepNonStar, h]
    rw [if_neg (by simpa using not_lt.mpr hle)]
  · intro p w h hgt
    simp only [keepNonStar, h]
    rw [if_pos (by simpa using hgt)]
    rcases ha : p.age with _ | a <;> rcases hn : p.pa with _ | n <;>
      simp [Bool.and_eq_true, decide_eq_true_iff]

/-! ### Fold lemmas for the cohort minimum and maximum -/

lemma foldl_min_le_init : ∀ (vs : List ℚ) (v : ℚ), vs.foldl min v ≤ v := by
  intro vs
  induction vs with
  | nil => intro v; exact le_refl v
  | cons u t ih =>
    intro v
    calc t.foldl min (min v u) ≤ min v u := ih _
      _ ≤ v := min_le_left _ _

lemma foldl_min_le_mem :
    ∀ (vs : List ℚ) (v w : ℚ), w ∈ vs → vs.foldl min v ≤ w := by
  intro vs
  induction vs with
  | nil => intro v w hw; cases hw
  | cons u t ih =>
    intro v w hw
    rcases List.mem_cons.mp hw with rfl | hw
    · calc t.foldl min (min v w) ≤ min v w := foldl_min_le_init _ _
        _ ≤ w := min_le_right _ _
    · exact ih _ _ hw

lemma foldl_min_mem : ∀ (vs : List ℚ) (v : ℚ), vs.foldl min v ∈ v :: vs := by
  intro vs
  induction vs with
  | nil => intro v; exact List.mem_singleton.mpr rfl
  | cons u t ih =>
    intro v
    rcases List.mem_cons.mp (ih (min v u)) with h | h
    · rcases min_choice v u with hm | hm
      · exact List.mem_cons.mpr (Or.inl (h.trans hm))
      · exact List.mem_cons.mpr
          (Or.inr (List.mem_cons.mpr (Or.inl (h.trans hm))))
    · exact List.mem_cons.mpr (Or.inr (List.mem_cons.mpr (Or.inr h)))

lemma le_foldl_max_init : ∀ (vs : List ℚ) (v : ℚ), v ≤ vs.foldl max v := by
  intro vs
  induction vs with
  | nil => intro v; exact le_refl v
  | cons u t ih =>
    intro v
    calc v ≤ max v u := le_max_left _ _
      _ ≤ t.foldl max (max v u) := ih _

lemma le_foldl_max_mem :
    ∀ (vs : List ℚ) (v w : ℚ), w ∈ vs → w ≤ vs.foldl max v := by
  intro vs
  induction vs with
  | nil => intro v w hw; cases hw
  | cons u t ih =>
    intro v w hw
    rcases List.mem_cons.mp hw with rfl | hw
    · calc w ≤ max v w := le_max_right _ _
        _ ≤ t.foldl max (max v w) := le_foldl_max_init _ _
    · exact ih _ _ hw

lemma foldl_max_mem : ∀ (vs : List ℚ) (v : ℚ), vs.foldl max v ∈ v :: vs := by
  intro vs
  induction vs with
  | nil => intro v; exact List.mem_singleton.mpr rfl
  | cons u t ih =>
    intro v
    rcases List.mem_cons.mp (ih (max v u)) with h | h
    · rcases max_choice v u with hm | hm
      · exact List.mem_cons.mpr (Or.inl (h.trans hm))
      · exact List.mem_cons.mpr
          (Or.inr (List.mem_cons.mpr (Or.inl (h.trans hm))))
    · exact List.mem_cons.mpr (Or.inr (List.mem_cons.mpr (Or.inr h)))

/-- The computed bounds are attained cohort extremes. -/
lemma boundsOf_spec (l : List Player) (year : ℤ) (f : Feature) (mn mx : ℚ)
    (h : boundsOf l year f = some (mn, mx)) :
    mn ∈ featureVals l year f ∧ mx ∈ featureVals l year f
      ∧ ∀ v ∈ featureVals l year f, mn ≤ v ∧ v ≤ mx := by
  unfold boundsOf at h
  rcases hv : featureVals l year f with _ | ⟨v, vs⟩
  · rw [hv] at h; cases h
  · rw [hv] at h
    obtain ⟨hmn, hmx⟩ : vs.foldl min v = mn ∧ vs.foldl max v = mx := by
      have := Option.some.injEq _ _ ▸ h
      exact ⟨congrArg Prod.fst (Option.some.inj h),
        congrArg Prod.snd (Option.some.inj h)⟩
    refine ⟨hmn ▸ foldl_min_mem vs v, hmx ▸ foldl_max_mem vs v, ?_⟩
    intro w hw
    rcases List.mem_cons.mp hw with rfl | hw
    · exact ⟨hmn ▸ foldl_min_le_init vs w, hmx ▸ le_foldl_max_init vs w⟩
    · exact ⟨hmn ▸ foldl_min_le_mem vs v w hw, hmx ▸ le_foldl_max_mem vs v w hw⟩

/-- Witness for C3: the star rule applied to the retained 23-year-old. -/
theorem cohort_filter_spec_witness :
    (repWoba young23 = some (4/10) ∧ (35/100 : ℚ) < 4/10)
    ∧ (keepNonStar young23 = true ↔
        (∃ a, young23.age = some a ∧ a < 24)
          ∧ (∃ n, young23.pa = some n ∧ n < 400)) :=
  ⟨⟨by norm_num [repWoba, jsOr, truthy, young23, nullPlayer], by norm_num⟩,
    cohort_filter_spec.2.2.2.2.1 young23 (4/10)
      (by norm_num [repWoba, jsOr, truthy, young23, nullPlayer]) (by norm_num)⟩

/-- C2 counterexample: in the cohort `[degPlayer]` the hard-hit feature has
a non-null value, yet the cohort maximum (0.5, held by `degPlayer`) is
normalized to 0, not 100: the claim's "maximum maps to 100" fails when the
cohort maximum equals the cohort minimum (`range = (max - min) || 1`). -/
theorem normalization_max_counterexample :
    featureVals [degPlayer] 2026 Feature.hardHitRate = [1/2]
    ∧ boundsOf [degPlayer] 2026 Feature.hardHitRate = some (1/2, 1/2)
    ∧ normScore (boundsOf [degPlayer] 2026 Feature.hardHitRate)
        (some (1/2)) = 0
    ∧ (scoredCohort [degPlayer] 2026).map
        (fun s => s.scores Feature.hardHitRate) = [0]
    ∧ (0 : ℚ) ≠ 100 := by
  have hvals : featureVals [degPlayer] 2026 Feature.hardHitRate = [1/2] := by
    norm_num [featureVals, scorePlayer, degPlayer, nullPlayer,
      List.filterMap_cons]
  have hb : boundsOf [degPlayer] 2026 Feature.hardHitRate = some (1/2, 1/2) := by
    rw [boundsOf, hvals]
    rfl
  have hns : normScore (some ((1:ℚ)/2, (1:ℚ)/2)) (some (1/2)) = 0 := by
    norm_num [normScore]
  have hfilter : cohortFilter [degPlayer] = [degPlayer] := by
    have h1 : keepHitter degPlayer = true := by decide
    have h2 : keepNonStar degPlayer = true := by
      norm_num [keepNonStar, repWoba, jsOr, truthy, degPlayer, nullPlayer]
    simp [cohortFilter, List.filter, h1, h2]
  refine ⟨hvals, hb, hb ▸ hns, ?_, by norm_num⟩
  simp only [scoredCohort, hfilter, List.map_map, List.map_cons, List.map_nil,
    Function.comp]
  simp only [scoreOne, hb]
  have : scorePlayer degPlayer 2026 Feature.hardHitRate = some (1/2) := rfl
  rw [this, hns]

/-- C2 (amended): for every cohort and feature with at least one non-null
raw value, provided the cohort maximum is distinct from the cohort minimum,
the normalizer maps the cohort minimum to 0 and the cohort maximum to 100,
and a null raw value receives exactly 50.  (When the maximum equals the
minimum the range is taken as 1 and every non-null value maps to 0 — the
degenerate behavior of C10.) -/
theorem normalization_bounds (l : List Player) (year : ℤ) (f : Feature)
    (mn mx : ℚ) (h : boundsOf l year f = some (mn, mx)) (hne : mn ≠ mx) :
    (mn ∈ featureVals l year f ∧ mx ∈ featureVals l year f
      ∧ ∀ v ∈ featureVals l year f, mn ≤ v ∧ v ≤ mx)
    ∧ normScore (boundsOf l year f) (some mn) = 0
    ∧ normScore (boundsOf l year f) (some mx) = 100
    ∧ normScore (boundsOf l year f) none = 50 := by
  refine ⟨boundsOf_spec l year f mn mx h, ?_, ?_, ?_⟩ <;> rw [h]
  · simp [normScore]
  · have hr : mx - mn ≠ 0 := sub_ne_zero.mpr (Ne.symm hne)
    simp only [normScore, if_neg hr]
    field_simp
  · rfl

/-- Witness for C2 (amended) on the cohort `[loPlayer, hiPlayer]`. -/
theorem normalization_bounds_witness :
    (boundsOf [loPlayer, hiPlayer] 2026 Feature.hardHitRate
        = some (3/10, 1/2) ∧ (3/10 : ℚ) ≠ 1/2)
    ∧ ((3/10 : ℚ) ∈ featureVals [loPlayer, hiPlayer] 2026 Feature.hardHitRate
        ∧ (1/2 : ℚ) ∈ featureVals [loPlayer, hiPlayer] 2026 Feature.hardHitRate
        ∧ ∀ v ∈ featureVals [loPlayer, hiPlayer] 2026 Feature.hardHitRate,
            3/10 ≤ v ∧ v ≤ 1/2)
      ∧ normScore (boundsOf [loPlayer, hiPlayer] 2026 Feature.hardHitRate)
          (some (3/10)) = 0
      ∧ normScore (boundsOf [loPlayer, hiPlayer] 2026 Feature.hardHitRate)
          (some (1/2)) = 100
      ∧ normScore (boundsOf [loPlayer, hiPlayer] 2026 Feature.hardHitRate)
          none = 50 := by
  have hvals : featureVals [loPlayer, hiPlayer] 2026 Feature.hardHitRate
      = [3/10, 1/2] := by
    norm_num [featureVals, scorePlayer, loPlayer, hiPlayer, nullPlayer,
      List.filterMap_cons]
  have hb : boundsOf [loPlayer, hiPlayer] 2026 Feature.hardHitRate
      = some (3/10, 1/2) := by
    rw [boundsOf, hvals]
    norm_num [List.foldl]
  exact ⟨⟨hb, by norm_num⟩,
    normalization_bounds [loPlayer, hiPlayer] 2026 Feature.hardHitRate
      (3/10) (1/2) hb (by norm_num)⟩

/-- C10: when every non-null raw value of a feature in the cohort is equal,
normalization is division-safe — the range is taken as 1 — and every
non-null value (the cohort maximum included) is normalized to 0, not 100,
while null values still receive exactly 50. -/
theorem degenerate_normalization (l : List Player) (year : ℤ) (f : Feature)
    (hne : featureVals l year f ≠ [])
    (hall : ∀ v ∈ featureVals l year f, ∀ w ∈ featureVals l year f, v = w) :
    (∃ c, boundsOf l year f = some (c, c)
       ∧ normScore (boundsOf l year f) (some c) = 0)
    ∧ (∀ v ∈ featureVals l year f,
        normScore (boundsOf l year f) (some v) = 0)
    ∧ normScore (boundsOf l year f) none = 50
    ∧ (0 : ℚ) ≠ 100 := by
  rcases hv : featureVals l year f with _ | ⟨v, vs⟩
  · exact absurd hv hne
  rw [hv] at hall
  have hb : boundsOf l year f = some (vs.foldl min v, vs.foldl max v) := by
    rw [boundsOf, hv]
  obtain ⟨hmem1, hmem2, _⟩ := boundsOf_spec l year f _ _ hb
  rw [hv] at hmem1 hmem2
  have hminv : vs.foldl min v = v := hall _ hmem1 v (List.mem_cons_self v vs)
  have hmaxv : vs.foldl max v = v := hall _ hmem2 v (List.mem_cons_self v vs)
  have hb' : boundsOf l year f = some (v, v) := by rw [hb, hminv, hmaxv]
  have hz : ∀ x : ℚ, x = v → normScore (some (v, v)) (some x) = 0 := by
    intro x hx
    simp [normScore, hx]
  refine ⟨⟨v, hb', hb' ▸ hz v rfl⟩, ?_, by rw [hb']; rfl, by norm_num⟩
  intro w hw
  rw [hb']
  exact hz w (hall w hw v (List.mem_cons_self v vs))

/-- Witness for C10 on the two-player constant cohort. -/
theorem degenerate_normalization_witness :
    (featureVals [degPlayer, degPlayer2] 2026 Feature.hardHitRate ≠ []
      ∧ ∀ v ∈ featureVals [degPlayer, degPlayer2] 2026 Feature.hardHitRate,
          ∀ w ∈ featureVals [degPlayer, degPlayer2] 2026 Feature.hardHitRate,
            v = w)
    ∧ ((∃ c, boundsOf [degPlayer, degPlayer2] 2026 Feature.hardHitRate
            = some (c, c)
          ∧ normScore (boundsOf [degPlayer, degPlayer2] 2026 Feature.hardHitRate)
              (some c) = 0)
       ∧ (∀ v ∈ featureVals [degPlayer, degPlayer2] 2026 Feature.hardHitRate,
            normScore (boundsOf [degPlayer, degPlayer2] 2026 Feature.hardHitRate)
              (some v) = 0)
       ∧ normScore (boundsOf [degPlayer, degPlayer2] 2026 Feature.hardHitRate)
           none = 50
       ∧ (0 : ℚ) ≠ 100) := by
  have hvals : featureVals [degPlayer, degPlayer2] 2026 Feature.hardHitRate
      = [1/2, 1/2] := by
    norm_num [featureVals, scorePlayer, degPlayer, degPlayer2, nullPlayer,
      List.filterMap_cons]
  have h1 : featureVals [degPlayer, degPlayer2] 2026 Feature.hardHitRate ≠ [] := by
    rw [hvals]; simp
  have h2 : ∀ v ∈ featureVals [degPlayer, degPlayer2] 2026 Feature.hardHitRate,
      ∀ w ∈ featureVals [degPlayer, degPlayer2] 2026 Feature.hardHitRate,
        v = w := by
    rw [hvals]
    intro v hv w hw
    rcases List.mem_cons.mp hv with rfl | hv' <;>
      rcases List.mem_cons.mp hw with rfl | hw' <;>
      simp_all
  exact ⟨⟨h1, h2⟩,
    degenerate_normalization [degPlayer, degPlayer2] 2026 Feature.hardHitRate
      h1 h2⟩


/-- C1: the final breakout score of every scored player is the raw weighted
composite multiplied by exactly the age multiplier, the sample-size
multiplier and the elite-profile composite multiplier, rounded to the
nearest integer; and the score is independent of the inputs that only the
advisory multipliers (career context, sophomore slump, years of service,
launch angle, pull rate, bat-speed boost, surplus-reliability discount)
consume beyond the scored features — `currentWoba`, `careerWoba`,
`yearsInMLB`, `launchAngleDelta`, `pullRate`.  The third conjunct ties the
per-player formula to the pipeline: `computeBreakoutScore` is exactly this
scoring mapped over the filtered cohort and then stably sorted. -/
theorem breakout_score_formula :
    (∀ (b : Feature → Option (ℚ × ℚ)) (year : ℤ) (p : Player),
        (scoreOne b year p).breakoutScore
          = jsRound (weightedTotal b (scorePlayer p year)
              * ageMult p.age * sampleMult p.pa * eliteMult p))
    ∧ (∀ (b : Feature → Option (ℚ × ℚ)) (year : ℤ) (p : Player)
        (cw c : Option ℚ) (y : Option ℤ) (la pr : Option ℚ),
        (scoreOne b year
            { p with currentWoba := cw, careerWoba := c, yearsInMLB := y,
                     launchAngleDelta := la, pullRate := pr }).breakoutScore
          = (scoreOne b year p).breakoutScore)
    ∧ (∀ (players : List Player) (year : ℤ),
        computeBreakoutScore players year
          = ((withIdx 0 ((cohortFilter players).map
                (scoreOne (fun f => boundsOf (cohortFilter players) year f)
                  year))).insertionSort rankRel).map Prod.snd) :=
  ⟨fun _ _ _ => rfl, fun _ _ _ _ _ _ _ _ => rfl, fun _ _ => rfl⟩

/-- C4: the elite-profile composite multiplier equals the product of its
conditional factors, with the barrel-improvement ×1.15 and the
hard-hit-improvement ×1.12 bonuses gated on a stable k-rate, the
chase-improvement ×1.10 bonus ungated, the ×0.75 penalty exactly when the
k-rate worsened by more than 0.05, and the ×1.20 mega-bonus exactly when at
least two of the three (k-rate-gated barrel, k-rate-gated hard-hit,
ungated chase) improvement flags hold; moreover, when the k-rate is not
stable the two gated bonuses disappear and the mega-bonus can never fire. -/
theorem elite_profile_gating :
    (∀ p : Player,
      eliteMult p
        = (if hardHitAboveAvg p then (110/100 : ℚ) else 1)
          * (if barrelAboveAvg p then 110/100 else 1)
          * (if batSpeedAboveAvg p then 108/100 else 1)
          * (if lowKRate p then 108/100 else 1)
          * (if barrelImproving p = true ∧ kRateStable p = true
              then 115/100 else 1)
          * (if hardHitImproving p = true ∧ kRateStable p = true
              then 112/100 else 1)
          * (if chaseImproving p then 110/100 else 1)
          * (if kRateExploded p then 75/100 else 1)
          * (if hardHitAboveAvg p = true ∧ barrelAboveAvg p = true
                ∧ batSpeedAboveAvg p = true ∧ lowKRate p = true
              then 115/100 else 1)
          * (if 2 ≤ (if barrelImproving p = true ∧ kRateStable p = true
                      then 1 else 0)
                  + (if hardHitImproving p = true ∧ kRateStable p = true
                      then 1 else 0)
                  + (if chaseImproving p = true then 1 else 0)
              then (120/100 : ℚ) else 1)
          * youngTalentFactor p)
    ∧ (∀ p : Player, kRateStable p = false →
        eliteMult p
          = (if hardHitAboveAvg p then (110/100 : ℚ) else 1)
            * (if barrelAboveAvg p then 110/100 else 1)
            * (if batSpeedAboveAvg p then 108/100 else 1)
            * (if lowKRate p then 108/100 else 1)
            * (if chaseImproving p then 110/100 else 1)
            * (if kRateExploded p then 75/100 else 1)
            * (if hardHitAboveAvg p = true ∧ barrelAboveAvg p = true
                  ∧ batSpeedAboveAvg p = true ∧ lowKRate p = true
                then 115/100 else 1)
            * youngTalentFactor p) := by
  have main : ∀ p : Player,
      eliteMult p
        = (if hardHitAboveAvg p then (110/100 : ℚ) else 1)
          * (if barrelAboveAvg p then 110/100 else 1)
          * (if batSpeedAboveAvg p then 108/100 else 1)
          * (if lowKRate p then 108/100 else 1)
          * (if barrelImproving p = true ∧ kRateStable p = true
              then 115/100 else 1)
          * (if hardHitImproving p = true ∧ kRateStable p = true
              then 112/100 else 1)
          * (if chaseImproving p then 110/100 else 1)
          * (if kRateExploded p then 75/100 else 1)
          * (if hardHitAboveAvg p = true ∧ barrelAboveAvg p = true
                ∧ batSpeedAboveAvg p = true ∧ lowKRate p = true
              then 115/100 else 1)
          * (if 2 ≤ (if barrelImproving p = true ∧ kRateStable p = true
                      then 1 else 0)
                  + (if hardHitImproving p = true ∧ kRateStable p = true
                      then 1 else 0)
                  + (if chaseImproving p = true then 1 else 0)
              then (120/100 : ℚ) else 1)
          * youngTalentFactor p := by
    intro p
    simp only [eliteMult, improvementCount, Bool.and_eq_true, and_assoc]
  refine ⟨main, ?_⟩
  intro p h
  rw [main p]
  have hks : ¬ (barrelImproving p = true ∧ kRateStable p = true) := by
    simp [h]
  have hks2 : ¬ (hardHitImproving p = true ∧ kRateStable p = true) := by
    simp [h]
  have hcnt : ¬ (2 ≤ (if barrelImproving p = true ∧ kRateStable p = true
        then 1 else 0)
      + (if hardHitImproving p = true ∧ kRateStable p = true then 1 else 0)
      + (if chaseImproving p = true then (1:ℕ) else 0)) := by
    rw [if_neg hks, if_neg hks2]
    rcases hc : chaseImproving p <;> simp
  rw [if_neg hks, if_neg hks2, if_neg hcnt]
  ring

/-- Witness for C4's second conjunct: a player whose k-rate worsened by
0.04 (unstable) with a 0.05 barrel gain receives no gated bonuses. -/
theorem elite_profile_gating_witness :
    (kRateStable { nullPlayer with
        kRateImprovement := some (-(4/100))
        barrelImprovement := some (5/100) } = false)
    ∧ eliteMult { nullPlayer with
        kRateImprovement := some (-(4/100))
        barrelImprovement := some (5/100) }
      = (if hardHitAboveAvg { nullPlayer with
            kRateImprovement := some (-(4/100))
            barrelImprovement := some (5/100) } then (110/100 : ℚ) else 1)
        * (if barrelAboveAvg { nullPlayer with
            kRateImprovement := some (-(4/100))
            barrelImprovement := some (5/100) } then 110/100 else 1)
        * (if batSpeedAboveAvg { nullPlayer with
            kRateImprovement := some (-(4/100))
            barrelImprovement := some (5/100) } then 108/100 else 1)
        * (if lowKRate { nullPlayer with
            kRateImprovement := some (-(4/100))
            barrelImprovement := some (5/100) } then 108/100 else 1)
        * (if chaseImproving { nullPlayer with
            kRateImprovement := some (-(4/100))
            barrelImprovement := some (5/100) } then 110/100 else 1)
        * (if kRateExploded { nullPlayer with
            kRateImprovement := some (-(4/100))
            barrelImprovement := some (5/100) } then 75/100 else 1)
        * (if hardHitAboveAvg { nullPlayer with
              kRateImprovement := some (-(4/100))
              barrelImprovement := some (5/100) } = true
            ∧ barrelAboveAvg { nullPlayer with
              kRateImprovement := some (-(4/100))
              barrelImprovement := some (5/100) } = true
            ∧ batSpeedAboveAvg { nullPlayer with
              kRateImprovement := some (-(4/100))
              barrelImprovement := some (5/100) } = true
            ∧ lowKRate { nullPlayer with
              kRateImprovement := some (-(4/100))
              barrelImprovement := some (5/100) } = true
            then 115/100 else 1)
        * youngTalentFactor { nullPlayer with
            kRateImprovement := some (-(4/100))
            barrelImprovement := some (5/100) } := by
  have h : kRateStable { nullPlayer with
      kRateImprovement := some (-(4/100))
      barrelImprovement := some (5/100) } = false := by
    norm_num [kRateStable]
  exact ⟨h, elite_profile_gating.2 _ h⟩


/-! ### Ranking lemmas -/

lemma withIdx_map_snd : ∀ (n : ℕ) (l : List ScoredPlayer),
    (withIdx n l).map Prod.snd = l := by
  intro n l
  induction l generalizing n with
  | nil => rfl
  | cons a t ih => simp [withIdx, ih]

lemma mem_withIdx_fst_le : ∀ (n : ℕ) (l : List ScoredPlayer),
    ∀ x ∈ withIdx n l, n ≤ x.1 := by
  intro n l
  induction l generalizing n with
  | nil => intro x hx; cases hx
  | cons a t ih =>
    intro x hx
    rcases List.mem_cons.mp hx with rfl | hx
    · exact le_refl n
    · exact (Nat.le_succ n).trans (ih (n + 1) x hx)

lemma withIdx_pairwise_lt : ∀ (n : ℕ) (l : List ScoredPlayer),
    (withIdx n l).Pairwise (fun a b => a.1 < b.1) := by
  intro n l
  induction l generalizing n with
  | nil => exact List.Pairwise.nil
  | cons a t ih =>
    refine List.Pairwise.cons ?_ (ih (n + 1))
    intro x hx
    exact Nat.lt_of_lt_of_le (Nat.lt_succ_self n) (mem_withIdx_fst_le (n + 1) t x hx)

/-- C9: a scoring invocation never alters the ingested records: the records
carried inside the ranked output are exactly (a permutation of) the filtered
input cohort — each one field-for-field the original `Player` value — and
the filtered cohort is a sublist of the input.  All derived state lives in
the `ScoredPlayer` wrapper, never in the `Player` record. -/
theorem pipeline_preserves_records (players : List Player) (year : ℤ) :
    ((computeBreakoutScore players year).map ScoredPlayer.record).Perm
        (cohortFilter players)
    ∧ (cohortFilter players).Sublist players := by
  constructor
  · have hperm := List.perm_insertionSort rankRel
      (withIdx 0 (scoredCohort players year))
    have h1 : (computeBreakoutScore players year).map ScoredPlayer.record
        = ((withIdx 0 (scoredCohort players year)).insertionSort
            rankRel).map (fun x => x.2.record) := by
      simp [computeBreakoutScore, rankedIdx, List.map_map, Function.comp]
    rw [h1]
    have h2 := hperm.map (fun x : ℕ × ScoredPlayer => x.2.record)
    refine h2.trans ?_
    have h3 : (withIdx 0 (scoredCohort players year)).map
        (fun x => x.2.record)
        = (scoredCohort players year).map ScoredPlayer.record := by
      have := withIdx_map_snd 0 (scoredCohort players year)
      calc (withIdx 0 (scoredCohort players year)).map (fun x => x.2.record)
          = ((withIdx 0 (scoredCohort players year)).map Prod.snd).map
              ScoredPlayer.record := by
            simp [List.map_map, Function.comp]
        _ = (scoredCohort players year).map ScoredPlayer.record := by
            rw [this]
    rw [h3]
    have h4 : (scoredCohort players year).map ScoredPlayer.record
        = cohortFilter players := by
      simp only [scoredCohort, List.map_map]
      have hid : (ScoredPlayer.record ∘ scoreOne
          (fun f => boundsOf (cohortFilter players) year f) year) = id :=
        funext fun p => rfl
      rw [hid, List.map_id]
    rw [h4]
  · exact (List.filter_sublist _).trans (List.filter_sublist _)

/-- C7: the ranker's output is the indexed cohort sorted so that scores are
non-increasing, and any two entries with equal final scores keep strictly
increasing input indices — i.e. their relative input order. -/
theorem ranked_sorted_stable (players : List Player) (year : ℤ) :
    computeBreakoutScore players year = (rankedIdx players year).map Prod.snd
    ∧ (rankedIdx players year).Pairwise
        (fun a b => b.2.breakoutScore ≤ a.2.breakoutScore
          ∧ (a.2.breakoutScore = b.2.breakoutScore → a.1 < b.1)) := by
  refine ⟨rfl, ?_⟩
  have hsorted : (rankedIdx players year).Pairwise rankRel :=
    List.sorted_insertionSort rankRel _
  have hperm := List.perm_insertionSort rankRel
    (withIdx 0 (scoredCohort players year))
  have hne : (rankedIdx players year).Pairwise (fun a b => a.1 ≠ b.1) := by
    have hlt := withIdx_pairwise_lt 0 (scoredCohort players year)
    have hne0 : (withIdx 0 (scoredCohort players year)).Pairwise
        (fun a b => a.1 ≠ b.1) :=
      hlt.imp (fun h => Nat.ne_of_lt h)
    exact (List.Perm.pairwise_iff
      (fun h => Ne.symm h) hperm).mpr hne0
  refine (hsorted.and hne).imp ?_
  intro a b hab
  rcases hab with ⟨hr, hne'⟩
  rcases hr with hlt | ⟨heq, hle⟩
  · exact ⟨le_of_lt hlt,
      fun he => absurd hlt (by rw [he]; exact lt_irrefl _)⟩
  · exact ⟨le_of_eq heq, fun _ => lt_of_le_of_ne hle hne'⟩


/-! ### Monotonicity in the hard-hit rate (C8) -/

lemma pos_ite {c : Prop} [Decidable c] {a b : ℚ} (ha : 0 < a) (hb : 0 < b) :
    0 < if c then a else b := by
  split_ifs <;> assumption

lemma one_le_ite_one {c : Prop} [Decidable c] {a : ℚ} (ha : 1 ≤ a) :
    1 ≤ if c then a else 1 := by
  split_ifs with h
  · exact ha
  · exact le_refl 1

lemma normScore_nonneg (b : Option (ℚ × ℚ)) (v : Option ℚ)
    (h : ∀ x, v = some x → ∀ mn mx, b = some (mn, mx) → mn ≤ x ∧ x ≤ mx) :
    0 ≤ normScore b v := by
  rcases b with _ | ⟨mn, mx⟩
  · norm_num [normScore]
  rcases v with _ | x
  · norm_num [normScore]
  obtain ⟨h1, h2⟩ := h x rfl mn mx rfl
  simp only [normScore]
  have hr : (0:ℚ) < if mx - mn = 0 then 1 else mx - mn := by
    split_ifs with h0
    · norm_num
    · exact lt_of_le_of_ne (sub_nonneg.mpr (h1.trans h2)) (Ne.symm h0)
  have hd : 0 ≤ (x - mn) / (if mx - mn = 0 then 1 else mx - mn) :=
    div_nonneg (by linarith) (le_of_lt hr)
  exact mul_nonneg hd (by norm_num)

lemma normScore_mono (b : Option (ℚ × ℚ)) (v v' : ℚ) (hv : v ≤ v')
    (hb : ∀ mn mx, b = some (mn, mx) → mn ≤ mx) :
    normScore b (some v) ≤ normScore b (some v') := by
  rcases b with _ | ⟨mn, mx⟩
  · exact le_refl _
  have hle := hb mn mx rfl
  simp only [normScore]
  have hr : (0:ℚ) ≤ if mx - mn = 0 then 1 else mx - mn := by
    split_ifs with h0
    · norm_num
    · exact sub_nonneg.mpr hle
  exact mul_le_mul_of_nonneg_right
    (div_le_div_of_nonneg_right (by linarith) hr) (by norm_num)

lemma WEIGHTS_nonneg (f : Feature) : 0 ≤ WEIGHTS f := by
  cases f <;> norm_num [WEIGHTS]

lemma foldl_weighted_nonneg (b : Feature → Option (ℚ × ℚ))
    (raw : Feature → Option ℚ)
    (h : ∀ f, 0 ≤ normScore (b f) (raw f)) :
    ∀ (fs : List Feature) (c : ℚ), 0 ≤ c →
      0 ≤ fs.foldl (fun acc f => acc + normScore (b f) (raw f) * WEIGHTS f) c := by
  intro fs
  induction fs with
  | nil => intro c hc; exact hc
  | cons f t ih =>
    intro c hc
    simp only [List.foldl_cons]
    refine ih _ ?_
    show 0 ≤ c + normScore (b f) (raw f) * WEIGHTS f
    have := mul_nonneg (h f) (WEIGHTS_nonneg f)
    linarith

lemma weightedTotal_nonneg (b : Feature → Option (ℚ × ℚ))
    (raw : Feature → Option ℚ) (h : InB b raw) : 0 ≤ weightedTotal b raw :=
  foldl_weighted_nonneg b raw
    (fun f => normScore_nonneg (b f) (raw f) (fun x hx => h f x hx))
    FEATURES 0 (le_refl 0)

lemma foldl_weighted_mono (b : Feature → Option (ℚ × ℚ))
    (raw1 raw2 : Feature → Option ℚ)
    (h : ∀ f, normScore (b f) (raw1 f) ≤ normScore (b f) (raw2 f)) :
    ∀ (fs : List Feature) (c1 c2 : ℚ), c1 ≤ c2 →
      fs.foldl (fun acc f => acc + normScore (b f) (raw1 f) * WEIGHTS f) c1
        ≤ fs.foldl (fun acc f => acc + normScore (b f) (raw2 f) * WEIGHTS f) c2 := by
  intro fs
  induction fs with
  | nil => intro c1 c2 hc; exact hc
  | cons f t ih =>
    intro c1 c2 hc
    simp only [List.foldl_cons]
    refine ih _ _ ?_
    show c1 + normScore (b f) (raw1 f) * WEIGHTS f
      ≤ c2 + normScore (b f) (raw2 f) * WEIGHTS f
    have := mul_le_mul_of_nonneg_right (h f) (WEIGHTS_nonneg f)
    linarith

lemma weightedTotal_mono (b : Feature → Option (ℚ × ℚ))
    (raw1 raw2 : Feature → Option ℚ)
    (h : ∀ f, normScore (b f) (raw1 f) ≤ normScore (b f) (raw2 f)) :
    weightedTotal b raw1 ≤ weightedTotal b raw2 :=
  foldl_weighted_mono b raw1 raw2 h FEATURES 0 0 (le_refl 0)

lemma eliteMult_factored (p : Player) :
    eliteMult p = sharedEliteFactors p
      * ((if hardHitAboveAvg p then (110/100 : ℚ) else 1)
        * (if hardHitAboveAvg p && barrelAboveAvg p && batSpeedAboveAvg p
              && lowKRate p then (115/100 : ℚ) else 1)
        * youngTalentFactor p) := by
  simp only [eliteMult, sharedEliteFactors]
  ring

lemma sharedEliteFactors_pos (p : Player) : 0 < sharedEliteFactors p := by
  unfold sharedEliteFactors
  refine mul_pos (mul_pos (mul_pos (mul_pos (mul_pos (mul_pos
    (mul_pos ?_ ?_) ?_) ?_) ?_) ?_) ?_) ?_ <;>
    exact pos_ite (by norm_num) (by norm_num)

lemma one_le_ageVal (a : ℤ) :
    1 ≤ (if a ≤ 21 then (140/100 : ℚ)
      else if a = 22 then 130/100
      else if a = 23 then 120/100
      else if a = 24 then 110/100
      else 1) := by
  split_ifs <;> norm_num

lemma one_le_youngTalentFactor (p : Player) : 1 ≤ youngTalentFactor p := by
  unfold youngTalentFactor
  rcases hp : p.age with _ | a
  · exact le_refl 1
  exact one_le_ite_one (one_le_ageVal a)

lemma hardHitAboveAvg_setHH_mono {p : Player} {v v' : ℚ} (hv : v ≤ v')
    (h : hardHitAboveAvg (setHH p v) = true) :
    hardHitAboveAvg (setHH p v') = true := by
  simp only [hardHitAboveAvg, setHH, gtOpt, decide_eq_true_eq] at h ⊢
  linarith

lemma eliteHardHit_setHH_mono {p : Player} {v v' : ℚ} (hv : v ≤ v')
    (h : eliteHardHit (setHH p v) = true) :
    eliteHardHit (setHH p v') = true := by
  simp only [eliteHardHit, setHH, gtOpt, decide_eq_true_eq] at h ⊢
  linarith

lemma youngTalentFactor_setHH_mono {p : Player} {v v' : ℚ} (hv : v ≤ v') :
    youngTalentFactor (setHH p v) ≤ youngTalentFactor (setHH p v') := by
  have hage : (setHH p v).age = p.age := rfl
  have hage' : (setHH p v').age = p.age := rfl
  rcases hp : p.age with _ | a
  · simp only [youngTalentFactor, hage, hage', hp]
    exact le_refl 1
  simp only [youngTalentFactor, hage, hage', hp]
  rcases hev : (eliteHardHit (setHH p v) && eliteBarrel (setHH p v)) with _ | _
  · rw [if_neg Bool.false_ne_true]
    exact one_le_ite_one (one_le_ageVal a)
  · obtain ⟨he, hb⟩ := (Bool.and_eq_true _ _).mp hev
    have he' := eliteHardHit_setHH_mono hv he
    have hb2 : eliteBarrel (setHH p v') = true := hb
    rw [if_pos (show (true = true) from rfl),
      if_pos (show (eliteHardHit (setHH p v')
          && eliteBarrel (setHH p v')) = true by simp [he', hb2])]

lemma eliteMult_setHH_mono {p : Player} {v v' : ℚ} (hv : v ≤ v') :
    eliteMult (setHH p v) ≤ eliteMult (setHH p v') := by
  rw [eliteMult_factored, eliteMult_factored]
  have hshared : sharedEliteFactors (setHH p v') = sharedEliteFactors (setHH p v) := rfl
  rw [hshared]
  refine mul_le_mul_of_nonneg_left ?_ (le_of_lt (sharedEliteFactors_pos _))
  have h1 : (if hardHitAboveAvg (setHH p v) then (110/100 : ℚ) else 1)
      ≤ (if hardHitAboveAvg (setHH p v') then (110/100 : ℚ) else 1) := by
    rcases hf : hardHitAboveAvg (setHH p v) with _ | _
    · rw [if_neg Bool.false_ne_true]
      exact one_le_ite_one (by norm_num)
    · rw [if_pos rfl, if_pos (hardHitAboveAvg_setHH_mono hv hf)]
  have h1l : (1:ℚ) ≤ if hardHitAboveAvg (setHH p v) then (110/100 : ℚ) else 1 :=
    one_le_ite_one (by norm_num)
  have h9 : (if hardHitAboveAvg (setHH p v) && barrelAboveAvg (setHH p v)
        && batSpeedAboveAvg (setHH p v) && lowKRate (setHH p v)
        then (115/100 : ℚ) else 1)
      ≤ (if hardHitAboveAvg (setHH p v') && barrelAboveAvg (setHH p v')
          && batSpeedAboveAvg (setHH p v') && lowKRate (setHH p v')
          then (115/100 : ℚ) else 1) := by
    rcases hf : (hardHitAboveAvg (setHH p v) && barrelAboveAvg (setHH p v)
        && batSpeedAboveAvg (setHH p v) && lowKRate (setHH p v)) with _ | _
    · rw [if_neg Bool.false_ne_true]
      exact one_le_ite_one (by norm_num)
    · obtain ⟨⟨⟨ha, hb⟩, hc⟩, hd⟩ :=
        by simpa only [Bool.and_eq_true] using hf
      have ha' := hardHitAboveAvg_setHH_mono hv ha
      have hbT : barrelAboveAvg (setHH p v') = true := hb
      have hcT : batSpeedAboveAvg (setHH p v') = true := hc
      have hdT : lowKRate (setHH p v') = true := hd
      rw [if_pos rfl,
        if_pos (show (hardHitAboveAvg (setHH p v')
            && barrelAboveAvg (setHH p v') && batSpeedAboveAvg (setHH p v')
            && lowKRate (setHH p v')) = true by
          simp [ha', hbT, hcT, hdT])]
  have h9l : (1:ℚ) ≤ if hardHitAboveAvg (setHH p v) && barrelAboveAvg (setHH p v)
      && batSpeedAboveAvg (setHH p v) && lowKRate (setHH p v)
      then (115/100 : ℚ) else 1 :=
    one_le_ite_one (by norm_num)
  have hyt := youngTalentFactor_setHH_mono (p := p) hv
  have hyt0 : (0:ℚ) ≤ youngTalentFactor (setHH p v) :=
    le_trans zero_le_one (one_le_youngTalentFactor _)
  have h19 := mul_le_mul h1 h9 (le_trans zero_le_one h9l)
    (le_trans (le_trans zero_le_one h1l) h1)
  exact mul_le_mul h19 hyt hyt0
    (le_trans (mul_nonneg (le_trans zero_le_one h1l)
      (le_trans zero_le_one h9l)) h19)

lemma eliteMult_pos (p : Player) : 0 < eliteMult p := by
  rw [eliteMult_factored]
  refine mul_pos (sharedEliteFactors_pos p)
    (mul_pos (mul_pos ?_ ?_) ?_)
  · exact pos_ite (by norm_num) (by norm_num)
  · exact pos_ite (by norm_num) (by norm_num)
  · exact lt_of_lt_of_le zero_lt_one (one_le_youngTalentFactor p)

lemma ageMult_pos (o : Option ℤ) : 0 < ageMult o := by
  rcases o with _ | a
  · norm_num [ageMult]
  · simp only [ageMult]
    split_ifs <;> norm_num

lemma sampleMult_pos (o : Option ℤ) : 0 < sampleMult o := by
  rcases o with _ | n
  · norm_num [sampleMult]
  · simp only [sampleMult]
    split_ifs <;> norm_num

lemma jsRound_mono {q q' : ℚ} (h : q ≤ q') : jsRound q ≤ jsRound q' := by
  unfold jsRound
  exact Int.floor_le_floor (by linarith)

/-- C8: with the cohort extremes fixed (the player's raw values, for both
the lower and the higher hard-hit rate, lie within the given per-feature
bounds, as they always do when the bounds are the cohort's own min/max),
strictly increasing a player's hard-hit rate — all other fields held fixed —
never decreases the final breakout score. -/
theorem hardHit_monotone (b : Feature → Option (ℚ × ℚ)) (year : ℤ)
    (p : Player) (v v' : ℚ) (hv : v < v')
    (h1 : InB b (scorePlayer (setHH p v) year))
    (h2 : InB b (scorePlayer (setHH p v') year)) :
    (scoreOne b year (setHH p v)).breakoutScore
      ≤ (scoreOne b year (setHH p v')).breakoutScore := by
  have hvle := le_of_lt hv
  have hraw1 : scorePlayer (setHH p v) year Feature.hardHitRate = some v := rfl
  have hraw2 : scorePlayer (setHH p v') year Feature.hardHitRate = some v' := rfl
  have hB : ∀ mn mx, b Feature.hardHitRate = some (mn, mx) → mn ≤ mx := by
    intro mn mx hb
    obtain ⟨ha, hb'⟩ := h1 Feature.hardHitRate v hraw1 mn mx hb
    exact ha.trans hb'
  have hpoint : ∀ f, normScore (b f) (scorePlayer (setHH p v) year f)
      ≤ normScore (b f) (scorePlayer (setHH p v') year f) := by
    intro f
    cases f
    case hardHitRate =>
      rw [hraw1, hraw2]
      exact normScore_mono (b Feature.hardHitRate) v v' hvle hB
    all_goals exact le_of_eq rfl
  have htot := weightedTotal_mono b _ _ hpoint
  have htot0 := weightedTotal_nonneg b _ h1
  have hE := eliteMult_setHH_mono (p := p) hvle
  have hE0 := eliteMult_pos (setHH p v)
  have hA := ageMult_pos p.age
  have hS := sampleMult_pos p.pa
  show jsRound (weightedTotal b (scorePlayer (setHH p v) year)
      * ageMult p.age * sampleMult p.pa * eliteMult (setHH p v))
    ≤ jsRound (weightedTotal b (scorePlayer (setHH p v') year)
      * ageMult p.age * sampleMult p.pa * eliteMult (setHH p v'))
  apply jsRound_mono
  have step1 : weightedTotal b (scorePlayer (setHH p v) year)
      * ageMult p.age * sampleMult p.pa
      ≤ weightedTotal b (scorePlayer (setHH p v') year)
        * ageMult p.age * sampleMult p.pa :=
    mul_le_mul_of_nonneg_right
      (mul_le_mul_of_nonneg_right htot (le_of_lt hA)) (le_of_lt hS)
  exact mul_le_mul step1 hE (le_of_lt hE0)
    (mul_nonneg (mul_nonneg (htot0.trans htot) (le_of_lt hA)) (le_of_lt hS))

/-- Witness for C8: raising the hard-hit rate from 0.3 to 0.5 inside fixed
bounds [0, 1] does not decrease the score of an otherwise-null player. -/
theorem hardHit_monotone_witness :
    ((3/10 : ℚ) < 5/10
      ∧ InB bW (scorePlayer (setHH nullPlayer (3/10)) 2026)
      ∧ InB bW (scorePlayer (setHH nullPlayer (5/10)) 2026))
    ∧ (scoreOne bW 2026 (setHH nullPlayer (3/10))).breakoutScore
        ≤ (scoreOne bW 2026 (setHH nullPlayer (5/10))).breakoutScore := by
  have hin : ∀ q : ℚ, 0 ≤ q → q ≤ 1 →
      InB bW (scorePlayer (setHH nullPlayer q) 2026) := by
    intro q h0 h1 f x hfx mn mx hb
    cases f
    case hardHitRate =>
      have hx : q = x := Option.some.inj hfx
      have h6 : ((0:ℚ), (1:ℚ)) = (mn, mx) := Option.some.inj hb
      obtain ⟨h7, h8⟩ := Prod.mk.inj h6
      subst hx
      rw [← h7, ← h8]
      exact ⟨h0, h1⟩
    all_goals norm_num [scorePlayer, setHH, nullPlayer, Player.xwobaOfSuffix,
      getFieldNames] at hfx <;> exact Option.noConfusion hfx
  have hA := hin (3/10) (by norm_num) (by norm_num)
  have hBw := hin (5/10) (by norm_num) (by norm_num)
  exact ⟨⟨by norm_num, hA, hBw⟩,
    hardHit_monotone bW 2026 nullPlayer (3/10) (5/10) (by norm_num) hA hBw⟩

end Breakout
